import Mathlib

/-!
# Verification of the auc-bnet realm directory resolver

Shallow embedding of the `bnet` package (three historical variants of the
realm-directory builder) and proofs about its spec claims.

Modelling conventions:
* Go strings are modelled as lists of Unicode code points (`Str := List Nat`);
  Go iterates over runes in all the code under study and every string handled
  by the claims is ASCII apart from the normalizer, whose diacritic handling is
  modelled over a small decomposition table.
* Go maps are modelled as association lists that keep at most one entry per
  key (`lookupA` / `insertA` reproduce Go map read / write semantics).
* The HTTP transport together with `encoding/json` decoding is modelled as a
  record of pure oracles, one per endpoint shape; a failed fetch or a failed
  decode both surface as an `Except.error` carrying an opaque error code,
  exactly as both surface as a single `error` return in the Go code.
* Errors produced by the package itself get dedicated constructors.
-/

namespace AucBnet

/-- A Go string, as its list of rune code points. -/
abbrev Str := List Nat

/-- Convert a Lean string literal to the code-point list model. -/
def s2l (s : String) : Str := s.data.map Char.toNat

/-- Go slice indexing `l[n]`: `none` models the index-out-of-range panic. -/
def sliceGet {α : Type} : List α → Nat → Option α
  | [], _ => none
  | e :: _, 0 => some e
  | _ :: t, n + 1 => sliceGet t n

/-- Go map read: first entry with the key, if any. -/
def lookupA (m : List (Str × Nat)) (k : Str) : Option Nat :=
  match m with
  | [] => none
  | (k', v) :: t => if k' = k then some v else lookupA t k

/-- Go map write: overwrite the entry if the key is present, else append. -/
def insertA (m : List (Str × Nat)) (k : Str) (v : Nat) : List (Str × Nat) :=
  match m with
  | [] => [(k, v)]
  | (k', v') :: t => if k' = k then (k, v) :: t else (k', v') :: insertA t k v

/-- Go `m[k] += d` on an int-valued map (missing keys read as zero). -/
def bumpA (m : List (Str × Int)) (k : Str) (d : Int) : List (Str × Int) :=
  match m with
  | [] => [(k, d)]
  | (k', v) :: t => if k' = k then (k', v + d) :: t else (k', v) :: bumpA t k d

/-- Go map read on an int-valued map, missing keys read as zero. -/
def getIA (m : List (Str × Int)) (k : Str) : Int :=
  match m with
  | [] => 0
  | (k', v) :: t => if k' = k then v else getIA t k

/-- Go `delete(m, k)`. -/
def removeA (m : List (Str × Int)) (k : Str) : List (Str × Int) :=
  match m with
  | [] => []
  | (k', v) :: t => if k' = k then t else (k', v) :: removeA t k

/-- `needle` occurs at the start of `hay`. -/
def isPre (needle hay : Str) : Bool :=
  match needle, hay with
  | [], _ => true
  | _ :: _, [] => false
  | a :: s, b :: t => a == b && isPre s t

/-- ASCII decimal digit test. -/
def isDig (n : Nat) : Bool := 48 ≤ n && n ≤ 57

/-- Longest run of leading ASCII digits. -/
def takeDigs : Str → Str
  | [] => []
  | c :: t => if isDig c then c :: takeDigs t else []

/-- Numeric value of an ASCII digit string (what `strconv.Atoi` computes). -/
def natOfDigs (l : Str) : Nat := l.foldl (fun a d => a * 10 + (d - 48)) 0

/-- The fixed marker of the cluster-reference pattern, `connected-realm/`. -/
def crMarker : Str := s2l "connected-realm/"

/-- One attempt of the regex `connected-realm/([0-9]+)\?` at the current
position: the marker, then a nonempty maximal digit run, then a literal `?`.
(The greedy `[0-9]+` followed by `\?` matches exactly this way: any
backtracked, shorter digit run is followed by a digit, not `?`.)
Returns the digit run on success. -/
def crMatchAt (l : Str) : Option Str :=
  if isPre crMarker l then
    let rest := l.drop crMarker.length
    let ds := takeDigs rest
    if ds.length > 0 && (rest.drop ds.length).head? == some 63 then
      some ds
    else
      none
  else none

/-- Leftmost match of `connected-realm/([0-9]+)\?` in an href, the digits of
the first (and only) capture group — `regexp.FindStringSubmatch`. -/
def findClusterDigits : Str → Option Str
  | [] => none
  | l@(_ :: t) =>
    match crMatchAt l with
    | some ds => some ds
    | none => findClusterDigits t

/-- Errors surfaced by the package (opaque `Nat` codes stand for errors handed
back verbatim from the transport or the JSON decoder). -/
inductive BErr where
  /-- A transport or JSON-decode error from a remote call, propagated verbatim. -/
  | fetch (code : Nat)
  /-- `strconv.Atoi` overflow on a matched digit run (`> 2^63 - 1`). -/
  | atoiOverflow
  /-- part_001 `scrapeConnRealm`: `blank realm response`. -/
  | blankRealm
  /-- part_001: `realms not completely scraped`. -/
  | notCompletelyScraped
  /-- `invalid region`. -/
  | invalidRegion
  /-- bnet.go `ConnectedRealmID`: `invalid realm slug`. -/
  | invalidRealmSlug
  /-- part_001 `ConnectedRealmID`: `realm not found in region`. -/
  | realmNotFound
  /-- part_000 `connRealmID`: `could not find connected realm in href for realm`. -/
  | hrefNotFound
  /-- Go runtime panic: method call through a nil `*sync.RWMutex`. -/
  | panicNilLock
  /-- Go runtime panic: slice index out of range (`sr.Results[i]`). -/
  | panicIndex
deriving DecidableEq

/-- A decoded `{id, slug}` realm entry, shared by the index, cluster and
search response shapes. -/
structure RealmEntry where
  id : Nat
  slug : Str
deriving DecidableEq

/-- Go `int` overflow bound for `strconv.Atoi`. -/
def intMax : Nat := 2 ^ 63 - 1

/-- The connected-realm index parsing loop shared by all three variants:
every href whose pattern match fails is silently skipped; a matched digit
run is fed to `strconv.Atoi`, whose only failure mode on a digit string is
overflow, which aborts (`return nil, err`). -/
def parseClusterIDs : List Str → Except BErr (List Nat)
  | [] => .ok []
  | h :: t =>
    match findClusterDigits h with
    | none => parseClusterIDs t
    | some ds =>
      if natOfDigs ds ≤ intMax then
        (parseClusterIDs t).map (natOfDigs ds :: ·)
      else
        .error .atoiOverflow

/-! ## Eager scatter-gather variant (`src/unnamed/part_001`)

`GetRealmList` fetches the realm index and the connected-realm index, parses
the cluster ids out of the hrefs into a buffered channel which is then
closed, and starts five worker goroutines.  Each worker receives from the
channel, scrapes that one cluster, merges under the shared lock — and then
`return nil`s out of its `range` loop, so each worker handles at most one
cluster: exactly the first `min 5 n` channel items (FIFO) are ever fetched.
All five workers run to completion whether or not a sibling fails (none of
them checks the group context), so every one of those fetches is attempted;
`errgroup.Wait` then reports the first recorded error and the merged maps are
used only if it reports none.  We model the worker phase sequentially in
channel order: the fetch trace is the whole processed-id list, and the
reported error is the error of the first failing unit in that order (one of
the schedules the Go scheduler can realize).  The per-slug merge writes of
distinct clusters commute, so the success value is schedule-independent. -/

/-- Transport + JSON decoding oracle for the part_001 variant. -/
structure TransportP1 where
  /-- `data/wow/realm/index` : decoded realm list, or a fetch/decode error code. -/
  realmIndex : Except Nat (List RealmEntry)
  /-- `data/wow/connected-realm/index` : decoded href list, or an error code. -/
  connIndex : Except Nat (List Str)
  /-- `/data/wow/connected-realm/{id}` : decoded member list, or an error code. -/
  cluster : Nat → Except Nat (List RealmEntry)

/-- Directory value built by part_001's `GetRealmList` (the `Realms` struct). -/
structure RealmsP1 where
  region : Str
  /-- `ConnectedRealms : map[int][]string`, cluster id to member slugs. -/
  connectedRealms : List (Nat × List Str)
  /-- `AllRealms : map[string]int`, slug to realm id. -/
  allRealms : List (Str × Nat)
  /-- private `crRealm : map[string]int`, slug to cluster id. -/
  crRealm : List (Str × Nat)
deriving DecidableEq

/-- Mutable state shared by the part_001 workers and the final cross-check. -/
structure CrcState where
  crc : List (Nat × List Str)
  check : List (Str × Int)
  crRealm : List (Str × Nat)
deriving DecidableEq

/-- `scrapeConnRealm`'s per-entry validation: an entry with a zero id or an
empty slug is a corrupt response and aborts; otherwise collect the slugs. -/
def entrySlugs : List RealmEntry → Except BErr (List Str)
  | [] => .ok []
  | e :: t =>
    if e.id = 0 ∨ e.slug = [] then .error .blankRealm
    else (entrySlugs t).map (e.slug :: ·)

/-- `scrapeConnRealm`'s append of one member slug into the
`map[int][]string` collection. -/
def crcAdd (m : List (Nat × List Str)) (cid : Nat) (slug : Str) : List (Nat × List Str) :=
  match m with
  | [] => [(cid, [slug])]
  | (c, l) :: t => if c = cid then (c, l ++ [slug]) :: t else (c, l) :: crcAdd t cid slug

/-- One worker unit of part_001: `scrapeConnRealm` (fetch + decode + blank
check + `crc` writes) followed by the caller's merge loop
(`crcCheck[r]++; crRealm[r] = c`), all under the one scanner lock. -/
def scrapeOne (t : TransportP1) (cid : Nat) (st : CrcState) : Except BErr CrcState :=
  match t.cluster cid with
  | .error e => .error (.fetch e)
  | .ok entries =>
    match entrySlugs entries with
    | .error e => .error e
    | .ok slugs =>
      .ok { crc := slugs.foldl (fun m s => crcAdd m cid s) st.crc
            check := slugs.foldl (fun m s => bumpA m s 1) st.check
            crRealm := slugs.foldl (fun m s => insertA m s cid) st.crRealm }

/-- The worker phase over the processed cluster ids, in channel order; the
result is the state after all merges, or the first failing unit's error. -/
def scrapeAll (t : TransportP1) : List Nat → CrcState → Except BErr CrcState
  | [], st => .ok st
  | cid :: rest, st =>
    match scrapeOne t cid st with
    | .error e => .error e
    | .ok st' => scrapeAll t rest st'

/-- The final cross-check loop of part_001's `GetRealmList`: walk the realm
index building `AllRealms` while decrementing `crcCheck`, deleting entries
that hit exactly zero. -/
def indexPass : List RealmEntry → List (Str × Nat) → List (Str × Int) →
    List (Str × Nat) × List (Str × Int)
  | [], ar, ck => (ar, ck)
  | e :: t, ar, ck =>
    let ar' := insertA ar e.slug e.id
    let ck' := bumpA ck e.slug (-1)
    let ck'' := if getIA ck' e.slug = 0 then removeA ck' e.slug else ck'
    indexPass t ar' ck''

/-- The slug-membership lists of the clusters a transport would serve for the
given processed ids (empty for a failed fetch) — the "results across all
workers" that `crcCheck` tallies. -/
def unitSlugs (t : TransportP1) (cid : Nat) : List Str :=
  match t.cluster cid with
  | .error _ => []
  | .ok entries => entries.map (·.slug)

/-- All member slugs served across the given units, in unit order — the
population `crcCheck` tallies. -/
def allUnitSlugs (t : TransportP1) : List Nat → List Str
  | [] => []
  | c :: rest => unitSlugs t c ++ allUnitSlugs t rest

/-- The error a part_001 worker unit reports for one cluster id, if any;
independent of the shared state. -/
def unitErr (t : TransportP1) (cid : Nat) : Option BErr :=
  match t.cluster cid with
  | .error e => some (.fetch e)
  | .ok entries =>
    match entrySlugs entries with
    | .error e => some e
    | .ok _ => none

/-- part_001 `GetRealmList`.  Returns the result together with the trace of
cluster ids whose membership fetch was attempted. -/
def getRealmListP1 (t : TransportP1) (region : Str) :
    Except BErr RealmsP1 × List Nat :=
  match t.realmIndex with
  | .error e => (.error (.fetch e), [])
  | .ok rlr =>
    match t.connIndex with
    | .error e => (.error (.fetch e), [])
    | .ok hrefs =>
      match parseClusterIDs hrefs with
      | .error e => (.error e, [])
      | .ok ids =>
        -- the closed channel holds `ids`; five workers consume one each
        let processed := ids.take 5
        match scrapeAll t processed ⟨[], [], []⟩ with
        | .error e => (.error e, processed)
        | .ok st =>
          let p := indexPass rlr [] st.check
          if p.2.length > 0 then
            (.error .notCompletelyScraped, processed)
          else
            (.ok ⟨region, st.crc, p.1, st.crRealm⟩, processed)

/-! ### The shared test fixture (part_002 / bnet_test.go scenario) -/

/-- Fixture realm index: five realms, ids 1–5. -/
def fxRealms : List RealmEntry :=
  [⟨1, s2l "realm1-main"⟩, ⟨2, s2l "realm2"⟩, ⟨3, s2l "realm3-main"⟩,
   ⟨4, s2l "realm4"⟩, ⟨5, s2l "realm5"⟩]

/-- Fixture connected-realm index: hrefs referencing clusters 1 and 3. -/
def fxHrefs : List Str :=
  [s2l "https://unittest.com/data/wow/connected-realm/1?namespace=dynamic-us",
   s2l "https://unittest.com/data/wow/connected-realm/3?namespace=dynamic-us"]

/-- Fixture per-cluster expansions: 1 ↦ realm1-main, realm2, realm5 and
3 ↦ realm3-main, realm4. -/
def fxCluster : Nat → Except Nat (List RealmEntry)
  | 1 => .ok [⟨1, s2l "realm1-main"⟩, ⟨2, s2l "realm2"⟩, ⟨5, s2l "realm5"⟩]
  | 3 => .ok [⟨3, s2l "realm3-main"⟩, ⟨4, s2l "realm4"⟩]
  | _ => .error 99

/-- The fixture transport for the eager variant. -/
def fixtureP1 : TransportP1 :=
  { realmIndex := .ok fxRealms, connIndex := .ok fxHrefs, cluster := fxCluster }

/-- The directory part_001 builds from the fixture. -/
def expectedP1 : RealmsP1 :=
  { region := s2l "us"
    connectedRealms :=
      [(1, [s2l "realm1-main", s2l "realm2", s2l "realm5"]),
       (3, [s2l "realm3-main", s2l "realm4"])]
    allRealms :=
      [(s2l "realm1-main", 1), (s2l "realm2", 2), (s2l "realm3-main", 3),
       (s2l "realm4", 4), (s2l "realm5", 5)]
    crRealm :=
      [(s2l "realm1-main", 1), (s2l "realm2", 1), (s2l "realm5", 1),
       (s2l "realm3-main", 3), (s2l "realm4", 3)] }

/-! ## Sequential variant (`src/pkg/bnet/bnet.go`)

`GetRealmList` makes only the two index calls: realms whose id appears in the
parsed cluster-id set become the initial `ConnectedRealms` entries
(slug ↦ own id); every other realm is left to be lazy-loaded later by
`ConnectedRealmID`, which asks the search endpoint and caches the answer in
the shared map (no lock exists in this variant). -/

/-- Decoded `data/wow/search/connected-realm` response. -/
structure SearchResp where
  pageSize : Nat
  results : List RealmEntry
deriving DecidableEq

/-- Transport + JSON decoding oracle for the bnet.go variant.  The search
oracle is keyed by the sanitized slug the code interpolates into the URL. -/
structure TransportB where
  realmIndex : Except Nat (List RealmEntry)
  connIndex : Except Nat (List Str)
  search : Str → Except Nat SearchResp

/-- Directory value built by bnet.go's `GetRealmList`; its `Region` field is
never assigned and stays the zero value `""`. -/
structure RealmsB where
  region : Str
  /-- `ConnectedRealms : map[string]int`, slug to connected-realm id. -/
  connectedRealms : List (Str × Nat)
  allRealms : List (Str × Nat)
deriving DecidableEq

/-- bnet.go `GetRealmList`: index fetches, href parsing into the `crLookup`
set, then one pass over the realm list filling `AllRealms` and the root
realms of `ConnectedRealms`. -/
def getRealmListB (t : TransportB) : Except BErr RealmsB :=
  match t.realmIndex with
  | .error e => .error (.fetch e)
  | .ok rlr =>
    match t.connIndex with
    | .error e => .error (.fetch e)
    | .ok hrefs =>
      match parseClusterIDs hrefs with
      | .error e => .error e
      | .ok ids =>
        let step := fun (p : List (Str × Nat) × List (Str × Nat)) (e : RealmEntry) =>
          (insertA p.1 e.slug e.id,
           if e.id ∈ ids then insertA p.2 e.slug e.id else p.2)
        let p := rlr.foldl step ([], [])
        .ok ⟨[], p.2, p.1⟩

/-- Go `unicode.IsSpace` restricted to the whitespace actually reachable in
slugs here (tab, LF, CR, space); all other `IsSpace` runes are outside the
modelled alphabet. -/
def isSpaceCh (n : Nat) : Bool := n == 9 || n == 10 || n == 13 || n == 32

/-- Drop leading whitespace. -/
def trimLeftStr : Str → Str
  | [] => []
  | c :: t => if isSpaceCh c then trimLeftStr t else c :: t

/-- Go `strings.TrimSpace`. -/
def trimSpaceStr (s : Str) : Str :=
  (trimLeftStr (trimLeftStr s.reverse).reverse)

/-- Go `strings.ToLower` on one rune, over the modelled alphabet: ASCII
letters, plus the two precomposed accented vowels in the diacritics table. -/
def lowerCh (n : Nat) : Nat :=
  if 65 ≤ n ∧ n ≤ 90 then n + 32
  else if n = 193 then 225      -- Á ↦ á
  else if n = 201 then 233      -- É ↦ é
  else n

/-- Go `strings.ToLower`. -/
def lowerStr (s : Str) : Str := s.map lowerCh

/-- The sanitization both fallback resolvers apply to their slug argument:
`strings.ToLower(strings.TrimSpace(realmSlug))`. -/
def sanitize (s : Str) : Str := lowerStr (trimSpaceStr s)

/-- Go `strings.Index(hay, needle)`: byte index of the first occurrence, or
-1 (all strings involved are ASCII, so byte and rune indices agree). -/
def goIndex : Str → Str → Int
  | hay, needle =>
    if isPre needle hay then 0
    else
      match hay with
      | [] => -1
      | _ :: t =>
        match goIndex t needle with
        | -1 => -1
        | i => i + 1

/-- `IsValidRegion` (identical in all three variants):
`i := strings.Index("useu", region); return i == 0 || i == 2`. -/
def isValidRegionGo (region : Str) : Bool :=
  let i := goIndex (s2l "useu") region
  i == 0 || i == 2

/-- bnet.go `ConnectedRealmID` on a `ConnectedRealmCollection`.  Returns the
Go `(int, error)` pair, the collection after the call (Go mutates the shared
map in place), and the number of transport `Get` calls made. -/
def connectedRealmIDB (t : TransportB) (realmSlug region : Str)
    (c : List (Str × Nat)) : Except BErr Nat × List (Str × Nat) × Nat :=
  -- `if !IsValidRegion(region) { return -1, invalid region }`
  if isValidRegionGo region then
    let r := sanitize realmSlug
    match lookupA c r with
    | some id => (.ok id, c, 0)
    | none =>
      match t.search r with
      | .error e => (.error (.fetch e), c, 1)
      | .ok sr =>
        -- `i` selection: scan only when PageSize > 1 (first result whose
        -- Data.Slug equals the ORIGINAL argument; 0 when none matches);
        -- PageSize == 0 is rejected; then `sr.Results[i]` may panic.
        if sr.pageSize > 1 then
          let i := (sr.results.findIdx? (fun en => en.slug = realmSlug)).getD 0
          match sliceGet sr.results i with
          | none => (.error .panicIndex, c, 1)
          | some en => (.ok en.id, insertA c realmSlug en.id, 1)
        else if sr.pageSize = 0 then (.error .invalidRealmSlug, c, 1)
        else
          match sliceGet sr.results 0 with
          | none => (.error .panicIndex, c, 1)
          | some en => (.ok en.id, insertA c realmSlug en.id, 1)
  else (.error .invalidRegion, c, 0)

/-- The fixture transport for the sequential variant (indices as in the
shared scenario; the search oracle resolves each non-root slug to its
cluster root's id, as the real service would). -/
def fixtureB : TransportB :=
  { realmIndex := .ok fxRealms
    connIndex := .ok fxHrefs
    search := fun s =>
      if s = s2l "realm2" then .ok ⟨1, [⟨1, s2l "realm2"⟩]⟩
      else if s = s2l "realm4" then .ok ⟨1, [⟨3, s2l "realm4"⟩]⟩
      else if s = s2l "realm5" then .ok ⟨1, [⟨1, s2l "realm5"⟩]⟩
      else .error 77 }

/-- What bnet.go's build actually returns on the fixture: `AllRealms` is
complete, but `ConnectedRealms` holds only the two root realms. -/
def expectedB : RealmsB :=
  { region := []
    connectedRealms := [(s2l "realm1-main", 1), (s2l "realm3-main", 3)]
    allRealms :=
      [(s2l "realm1-main", 1), (s2l "realm2", 2), (s2l "realm3-main", 3),
       (s2l "realm4", 4), (s2l "realm5", 5)] }

/-! ## Lazy-concurrent variant (`src/unnamed/part_000`)

`GetRealmList` here pushes every non-root slug into a buffered channel `ch`
and then runs `for slug := range ch`, spawning one errgroup goroutine per
received slug.  `close(ch)` is never called, and after the send loop no
goroutine ever sends on `ch` again, so once the buffered items are drained
the range loop blocks forever and the function's success return is
unreachable.  Additionally `rs := &realmScanner{}` leaves the scanner's
`lock` field nil, so any worker that runs panics at `r.lock.RLock()`, and
the package-level `var r *realmScanner` used by the exported
`ConnectedRealmID` is a nil pointer.

A Go channel is modelled by its buffered contents and closed flag; ranging
over it terminates exactly when the channel is closed (given that nobody
else sends, which holds here).  The branch for a closed channel below is the
success path the source would take; the source always reaches the other
branch. -/

/-- A buffered Go channel: contents plus closed flag. -/
structure GoChan where
  buf : List Str
  closed : Bool

/-- `realmScanner`: its lock is a `*sync.RWMutex`, nil unless assigned. -/
structure Scanner000 where
  lock : Option Unit

/-- `rs := &realmScanner{}` in part_000's `GetRealmList`: the `lock` field
keeps its zero value, nil. -/
def buildScanner000 : Scanner000 := ⟨none⟩

/-- Package-level `var r *realmScanner` of part_000: never assigned
(this variant has no `init`), hence a nil pointer. -/
def globalScanner000 : Option Scanner000 := none

/-- Transport + JSON decoding oracle for the part_000 variant. -/
structure Transport000 where
  realmIndex : Except Nat (List RealmEntry)
  connIndex : Except Nat (List Str)
  /-- `data/wow/realm/{slug}` : decoded `connected_realm.href`, or an error code. -/
  realm : Str → Except Nat Str

/-- Directory value built by part_000's `GetRealmList`. -/
structure Realms000 where
  region : Str
  connectedRealms : List (Str × Nat)
  allRealms : List (Str × Nat)
deriving DecidableEq

/-- Observable outcome of running part_000's `GetRealmList`: a returned
value, a returned error, blocking forever in the dispatch loop, or a Go
runtime panic crashing the process. -/
inductive Outcome000 where
  | ok (r : Realms000)
  | err (e : BErr)
  | blocked
  | panicked
deriving DecidableEq

/-- part_000 `connRealmID`: region check, then `r.lock.RLock()` — a runtime
panic when the lock is nil — then the cached-entry check, then the per-realm
fetch, href extraction and locked cache write (note the write is keyed by
the ORIGINAL `realmSlug`, the read by the sanitized one).  Returns the
`(int, error)` pair, the collection after the call and the number of
transport `Get` calls. -/
def connRealmID000 (rs : Scanner000) (t : Transport000) (realmSlug region : Str)
    (c : List (Str × Nat)) : Except BErr Nat × List (Str × Nat) × Nat :=
  -- `if !IsValidRegion(region) { return -1, invalid region }`
  if isValidRegionGo region then
    match rs.lock with
    | none => (.error .panicNilLock, c, 0)
    | some _ =>
      let sanitized := sanitize realmSlug
      match lookupA c sanitized with
      | some id => (.ok id, c, 0)   -- returns while still holding the read lock
      | none =>
        match t.realm sanitized with
        | .error e => (.error (.fetch e), c, 1)
        | .ok href =>
          match findClusterDigits href with
          | none => (.error .hrefNotFound, c, 1)
          | some ds =>
            if natOfDigs ds ≤ intMax then
              (.ok (natOfDigs ds), insertA c realmSlug (natOfDigs ds), 1)
            else
              (.error .atoiOverflow, c, 1)
  else (.error .invalidRegion, c, 0)

/-- part_000's exported `ConnectedRealmID` dispatches through the nil
package-level scanner; the nil receiver's `lock` field access behaves as a
nil lock. -/
def exportedConnRealmID000 (t : Transport000) (realmSlug region : Str)
    (c : List (Str × Nat)) : Except BErr Nat × List (Str × Nat) × Nat :=
  match globalScanner000 with
  | some rs => connRealmID000 rs t realmSlug region c
  | none => connRealmID000 ⟨none⟩ t realmSlug region c

/-- The dead success path of part_000: what the dispatch loop, the workers
and `eg.Wait()` would produce if the channel were closed.  Each worker calls
`connRealmID000` on the build's nil-lock scanner; a worker error surfaces
through `eg.Wait` (a nil-lock panic crashes the process instead). -/
def drain000 (t : Transport000) (region : Str) :
    List Str → List (Str × Nat) → Except BErr (List (Str × Nat)) × Bool
  | [], c => (.ok c, false)
  | slug :: rest, c =>
    match connRealmID000 buildScanner000 t slug region c with
    | (.error .panicNilLock, _, _) => (.error .panicNilLock, true)
    | (.error e, _, _) => (.error e, false)
    | (.ok _, c', _) => drain000 t region rest c'

/-- part_000 `GetRealmList`. -/
def getRealmList000 (t : Transport000) (region : Str) : Outcome000 :=
  match t.realmIndex with
  | .error e => .err (.fetch e)
  | .ok rlr =>
    match t.connIndex with
    | .error e => .err (.fetch e)
    | .ok hrefs =>
      match parseClusterIDs hrefs with
      | .error e => .err e
      | .ok ids =>
        let step := fun (p : List (Str × Nat) × List (Str × Nat) × List Str)
            (e : RealmEntry) =>
          let ar := insertA p.1 e.slug e.id
          if e.id ∈ ids then (ar, insertA p.2.1 e.slug e.id, p.2.2)
          else (ar, p.2.1, p.2.2 ++ [e.slug])
        let acc := rlr.foldl step ([], [], [])
        -- `close(ch)` never appears in the source
        let ch : GoChan := ⟨acc.2.2, false⟩
        if ch.closed then
          let d := drain000 t region ch.buf acc.2.1
          if d.2 then .panicked
          else
            match d.1 with
            | .error e => .err e
            | .ok m' => .ok ⟨region, m', acc.1⟩
        else
          .blocked

/-! ## The slug normalizer (`RealmSlug`, identical in all three variants)

Pipeline: `ToLower`, drop `-`, drop `'`, map space to `-`, then
`transform.Chain(norm.NFD, transform.RemoveFunc(isMn), norm.NFC)`.
The Unicode machinery is modelled over the alphabet reachable in this
development: ASCII plus the precomposed acute-accented vowels in
`nfdTable`.  Over that alphabet — one base rune plus at most one
nonspacing mark — pairwise canonical composition is exact NFC. -/

/-- Go `strings.Replace(s, string(x), "", -1)`. -/
def removeCh (x : Nat) : Str → Str
  | [] => []
  | c :: t => if c = x then removeCh x t else c :: removeCh x t

/-- Go `strings.Replace(s, string(a), string(b), -1)` for single runes. -/
def replCh (a b : Nat) : Str → Str
  | [] => []
  | c :: t => (if c = a then b else c) :: replCh a b t

/-- Canonical decomposition of the modelled precomposed runes:
á (225) ↦ a + U+0301, é (233) ↦ e + U+0301. -/
def nfdTable (n : Nat) : Option (Nat × Nat) :=
  if n = 225 then some (97, 769)
  else if n = 233 then some (101, 769)
  else none

/-- `unicode.Is(unicode.Mn, r)` over the modelled alphabet: the combining
acute accent U+0301 is the only nonspacing mark. -/
def isMnCh (n : Nat) : Bool := n == 769

/-- `norm.NFD`. -/
def nfdStr : Str → Str
  | [] => []
  | c :: t =>
    match nfdTable c with
    | some (b, m) => b :: m :: nfdStr t
    | none => c :: nfdStr t

/-- `transform.RemoveFunc(isMn)`. -/
def stripMn : Str → Str
  | [] => []
  | c :: t => if isMnCh c then stripMn t else c :: stripMn t

/-- Canonical composition of a base rune with a following mark (the inverse
of `nfdTable`). -/
def composeCh (a b : Nat) : Option Nat :=
  if b = 769 then
    if a = 97 then some 225
    else if a = 101 then some 233
    else none
  else none

/-- `norm.NFC` over the modelled alphabet. -/
def nfcStr : Str → Str
  | [] => []
  | [c] => [c]
  | a :: b :: t =>
    match composeCh a b with
    | some x => x :: nfcStr t
    | none => a :: nfcStr (b :: t)

/-- `RealmSlug`. -/
def realmSlugGo (s : Str) : Str :=
  nfcStr (stripMn (nfdStr (replCh 32 45 (removeCh 39 (removeCh 45 (lowerStr s))))))

/-- A rune the whole normalizer pipeline leaves alone: already lowercase,
none of the three replaced punctuation runes, canonically stable and not a
nonspacing mark.  Every rune of a normalized space-free slug is stable. -/
def stableCh (c : Nat) : Prop :=
  lowerCh c = c ∧ c ≠ 45 ∧ c ≠ 39 ∧ c ≠ 32 ∧ nfdTable c = none ∧ isMnCh c = false

/-! ## Remaining fixtures -/

/-- The fixture scenario with `realm5` removed from cluster 1's expansion
response (the only expansion response it occurs in). -/
def fxClusterNo5 : Nat → Except Nat (List RealmEntry)
  | 1 => .ok [⟨1, s2l "realm1-main"⟩, ⟨2, s2l "realm2"⟩]
  | 3 => .ok [⟨3, s2l "realm3-main"⟩, ⟨4, s2l "realm4"⟩]
  | _ => .error 99

/-- Fixture transport for the eager variant with `realm5` unaccounted for. -/
def fixtureP1No5 : TransportP1 :=
  { realmIndex := .ok fxRealms, connIndex := .ok fxHrefs, cluster := fxClusterNo5 }

/-- Eager-variant transport whose realm-index fetch fails with error code 7. -/
def fixtureP1IdxErr : TransportP1 :=
  { realmIndex := .error 7, connIndex := .ok fxHrefs, cluster := fxCluster }

/-- Eager-variant transport where cluster 3's membership fetch fails with
error code 55. -/
def fixtureP1UnitErr : TransportP1 :=
  { realmIndex := .ok fxRealms, connIndex := .ok fxHrefs
    cluster := fun cid =>
      if cid = 3 then .error 55 else fxCluster cid }

/-- A connected-realm index with six parseable cluster references
(1, 3, 7, 8, 9, 10). -/
def fxHrefs6 : List Str :=
  fxHrefs ++
    [s2l "https://unittest.com/data/wow/connected-realm/7?namespace=dynamic-us",
     s2l "https://unittest.com/data/wow/connected-realm/8?namespace=dynamic-us",
     s2l "https://unittest.com/data/wow/connected-realm/9?namespace=dynamic-us",
     s2l "https://unittest.com/data/wow/connected-realm/10?namespace=dynamic-us"]

/-- Eager-variant transport with six parsed clusters: 7, 8 and 9 expand to
empty member lists and the fetch of cluster 10 would fail — but only the
first five channel items are ever taken by the five one-shot workers. -/
def fixtureP1Six : TransportP1 :=
  { realmIndex := .ok fxRealms
    connIndex := .ok fxHrefs6
    cluster := fun cid =>
      if cid = 7 ∨ cid = 8 ∨ cid = 9 then .ok []
      else if cid = 10 then .error 66
      else fxCluster cid }

/-- An href no cluster id can be extracted from. -/
def fxBadHref : Str := s2l "https://unittest.com/data/wow/connected-realm/index?x"

/-- Fixture transport for the lazy-concurrent variant (the part_002 mock),
with an injected error on the per-realm fetch of `realm2`. -/
def fixture000Err : Transport000 :=
  { realmIndex := .ok fxRealms
    connIndex := .ok fxHrefs
    realm := fun s =>
      if s = s2l "realm2" then .error 42
      else if s = s2l "realm4" then
        .ok (s2l "https://unittest.com/data/wow/connected-realm/3?namespace=dynamic-us")
      else if s = s2l "realm5" then
        .ok (s2l "https://unittest.com/data/wow/connected-realm/1?namespace=dynamic-us")
      else .error 77 }

/-- The slug `Realm2`: equal to the fixture slug `realm2` after
sanitization, but not literally. -/
def slugR2U : Str := s2l "Realm2"

/-- A search-endpoint oracle used for witnesses: resolves sanitized
`realm2` to cluster 1 with a single-result page. -/
def fixtureBW : TransportB :=
  { realmIndex := .ok fxRealms
    connIndex := .ok fxHrefs
    search := fun s =>
      if s = s2l "realm2" then .ok ⟨1, [⟨1, s2l "realm2"⟩]⟩
      else .error 77 }

/-! ## Association-list lemmas -/

theorem lookupA_insertA_self (m : List (Str × Nat)) (k : Str) (v : Nat) :
    lookupA (insertA m k v) k = some v := by
  induction m with
  | nil => simp [insertA, lookupA]
  | cons e t ih =>
    by_cases hk : e.1 = k
    · simp [insertA, hk, lookupA]
    · simp only [insertA]
      rw [if_neg hk]
      simp [lookupA, hk, ih]

theorem lookupA_insertA_ne (m : List (Str × Nat)) (k k' : Str) (v : Nat)
    (h : k' ≠ k) : lookupA (insertA m k v) k' = lookupA m k' := by
  have h' : k ≠ k' := Ne.symm h
  induction m with
  | nil => simp [insertA, lookupA, h']
  | cons e t ih =>
    by_cases hk : e.1 = k
    · simp only [insertA]
      rw [if_pos hk]
      simp [lookupA, h', hk]
    · simp only [insertA]
      rw [if_neg hk]
      by_cases hq : e.1 = k'
      · simp [lookupA, hq]
      · simp [lookupA, hq, ih]

theorem getIA_bumpA_self (m : List (Str × Int)) (k : Str) (d : Int) :
    getIA (bumpA m k d) k = getIA m k + d := by
  induction m with
  | nil => simp [bumpA, getIA]
  | cons e t ih =>
    by_cases hk : e.1 = k
    · simp only [bumpA]
      rw [if_pos hk]
      simp [getIA, hk]
    · simp only [bumpA]
      rw [if_neg hk]
      simp [getIA, hk, ih]

theorem getIA_bumpA_ne (m : List (Str × Int)) (k k' : Str) (d : Int)
    (h : k ≠ k') : getIA (bumpA m k d) k' = getIA m k' := by
  induction m with
  | nil => simp [bumpA, getIA, h]
  | cons e t ih =>
    by_cases hk : e.1 = k
    · simp only [bumpA]
      rw [if_pos hk]
      simp [getIA, hk, h, ih]
    · simp only [bumpA]
      rw [if_neg hk]
      by_cases hq : e.1 = k'
      · simp [getIA, hq]
      · simp [getIA, hq, ih]

theorem getIA_removeA_ne (m : List (Str × Int)) (k k' : Str)
    (h : k ≠ k') : getIA (removeA m k) k' = getIA m k' := by
  induction m with
  | nil => simp [removeA]
  | cons e t ih =>
    by_cases hk : e.1 = k
    · simp only [removeA]
      rw [if_pos hk]
      simp [getIA, hk, h]
    · simp only [removeA]
      rw [if_neg hk]
      by_cases hq : e.1 = k'
      · simp [getIA, hq]
      · simp [getIA, hq, ih]

theorem length_pos_of_getIA (m : List (Str × Int)) (k : Str)
    (h : getIA m k ≠ 0) : 0 < m.length := by
  cases m with
  | nil => simp [getIA] at h
  | cons e t => simp

theorem count_foldl_bump (l : List Str) (m : List (Str × Int)) (k : Str) :
    getIA (l.foldl (fun m s => bumpA m s 1) m) k =
      getIA m k + (l.count k : Int) := by
  induction l generalizing m with
  | nil => simp
  | cons a t ih =>
    simp only [List.foldl_cons]
    rw [ih]
    by_cases hk : a = k
    · subst hk
      rw [getIA_bumpA_self]
      rw [List.count_cons_self]
      push_cast
      ring
    · rw [getIA_bumpA_ne _ _ _ _ hk]
      rw [List.count_cons_of_ne (fun hh => hk hh.symm)]

theorem entrySlugs_ok (es : List RealmEntry) (l : List Str)
    (h : entrySlugs es = .ok l) : l = es.map (·.slug) := by
  induction es generalizing l with
  | nil =>
    simp only [entrySlugs, Except.ok.injEq] at h
    simp [h.symm]
  | cons e t ih =>
    simp only [entrySlugs] at h
    by_cases hb : e.id = 0 ∨ e.slug = []
    · rw [if_pos hb] at h
      exact Except.noConfusion h
    · rw [if_neg hb] at h
      rcases ht : entrySlugs t with e' | l' <;> rw [ht] at h <;>
        simp only [Except.map] at h
      · exact Except.noConfusion h
      · simp only [Except.ok.injEq] at h
        rw [← h, ih l' ht]
        simp

theorem scrapeOne_ok_check (t : TransportP1) (cid : Nat) (st st' : CrcState)
    (h : scrapeOne t cid st = .ok st') (k : Str) :
    getIA st'.check k = getIA st.check k + ((unitSlugs t cid).count k : Int) := by
  unfold scrapeOne at h
  rcases hc : t.cluster cid with e | entries <;> rw [hc] at h <;> dsimp only at h
  · exact Except.noConfusion h
  · rcases hs : entrySlugs entries with e | slugs <;> rw [hs] at h <;>
      dsimp only at h
    · exact Except.noConfusion h
    · simp only [Except.ok.injEq] at h
      rw [← h]
      dsimp only
      rw [count_foldl_bump]
      rw [unitSlugs, hc]
      dsimp only
      rw [← entrySlugs_ok entries slugs hs]

theorem scrapeAll_check (t : TransportP1) (cids : List Nat) :
    ∀ st st' : CrcState, scrapeAll t cids st = .ok st' → ∀ k : Str,
      getIA st'.check k = getIA st.check k + ((allUnitSlugs t cids).count k : Int) := by
  induction cids with
  | nil =>
    intro st st' h k
    simp only [scrapeAll, Except.ok.injEq] at h
    rw [← h]
    simp [allUnitSlugs]
  | cons c rest ih =>
    intro st st' h k
    simp only [scrapeAll] at h
    rcases h1 : scrapeOne t c st with e | st1 <;> rw [h1] at h <;> dsimp only at h
    · exact Except.noConfusion h
    · rw [ih st1 st' h k, scrapeOne_ok_check t c st st1 h1 k]
      simp only [allUnitSlugs, List.count_append]
      push_cast
      ring

theorem indexPass_check_skip (rl : List RealmEntry) :
    ∀ (ar : List (Str × Nat)) (ck : List (Str × Int)) (s : Str),
      s ∉ rl.map (·.slug) →
      getIA (indexPass rl ar ck).2 s = getIA ck s := by
  induction rl with
  | nil => intro ar ck s _; simp [indexPass]
  | cons e t ih =>
    intro ar ck s h
    simp only [List.map_cons, List.mem_cons, not_or] at h
    have hne : e.slug ≠ s := fun hh => h.1 hh.symm
    simp only [indexPass]
    by_cases h0 : getIA (bumpA ck e.slug (-1)) e.slug = 0
    · rw [if_pos h0, ih _ _ s h.2, getIA_removeA_ne _ _ _ hne,
        getIA_bumpA_ne _ _ _ _ hne]
    · rw [if_neg h0, ih _ _ s h.2, getIA_bumpA_ne _ _ _ _ hne]

theorem indexPass_check_mem (rl : List RealmEntry) :
    ∀ (ar : List (Str × Nat)) (ck : List (Str × Int)) (s : Str),
      s ∈ rl.map (·.slug) → (rl.map (·.slug)).Nodup → getIA ck s ≠ 1 →
      getIA (indexPass rl ar ck).2 s = getIA ck s - 1 := by
  induction rl with
  | nil => intro ar ck s hmem _ _; simp at hmem
  | cons e t ih =>
    intro ar ck s hmem hnd h1
    simp only [List.map_cons, List.mem_cons] at hmem
    simp only [List.map_cons, List.nodup_cons] at hnd
    rcases hmem with he | ht
    · subst he
      simp only [indexPass]
      have hb : getIA (bumpA ck e.slug (-1)) e.slug = getIA ck e.slug - 1 := by
        rw [getIA_bumpA_self]; ring
      have hnz : ¬ getIA (bumpA ck e.slug (-1)) e.slug = 0 := by
        rw [hb]; omega
      rw [if_neg hnz, indexPass_check_skip t _ _ e.slug hnd.1, hb]
    · have hne : e.slug ≠ s := fun hh => hnd.1 (hh ▸ ht)
      simp only [indexPass]
      by_cases h0 : getIA (bumpA ck e.slug (-1)) e.slug = 0
      · rw [if_pos h0]
        rw [ih _ _ s ht hnd.2 (by rwa [getIA_removeA_ne _ _ _ hne,
          getIA_bumpA_ne _ _ _ _ hne]),
          getIA_removeA_ne _ _ _ hne, getIA_bumpA_ne _ _ _ _ hne]
      · rw [if_neg h0]
        rw [ih _ _ s ht hnd.2 (by rwa [getIA_bumpA_ne _ _ _ _ hne]),
          getIA_bumpA_ne _ _ _ _ hne]

/-! ## Sanity checks of the embeddings against the repository's unit tests -/

theorem p1_matches_unit_test :
    (getRealmListP1 fixtureP1 (s2l "us")).1 = .ok expectedP1 := rfl

theorem b_builds_roots_only : getRealmListB fixtureB = .ok expectedB := rfl

theorem slug_twisting_nether :
    realmSlugGo (s2l "Twisting Nether") = s2l "twisting-nether" := rfl

theorem slug_accented :
    realmSlugGo [193, 114, 101, 97, 32, 53, 50] = s2l "area-52" := rfl

/-! ## C1 -/

/-- C1 counterexample: the claim asserts that, for every implementation
variant, a successful fixture build returns a cluster membership mapping
`realm2` (among others) to cluster 1.  The sequential variant
(`src/pkg/bnet/bnet.go`) builds successfully on the fixture, yet its
returned `ConnectedRealms` has no entry for `realm2` at all: it contains
only the two root realms. -/
theorem c1_counterexample :
    getRealmListB fixtureB = .ok expectedB ∧
    lookupA expectedB.connectedRealms (s2l "realm2") = none ∧
    lookupA expectedB.connectedRealms (s2l "realm5") = none := by
  refine ⟨rfl, by decide, by decide⟩

/-- C1 (amended): on the fixture scenario the eager scatter-gather variant
(`src/unnamed/part_001`) builds a directory whose cluster membership maps
realm1-main ↦ 1, realm2 ↦ 1, realm5 ↦ 1, realm3-main ↦ 3, realm4 ↦ 3 and
whose `AllRealms` maps every slug to its own realm id; the sequential
variant (`src/pkg/bnet/bnet.go`) also builds the full `AllRealms` but its
membership map holds only the root realms realm1-main ↦ 1 and
realm3-main ↦ 3, deferring the rest to lazy resolution. -/
theorem c1_fixture_directory :
    (getRealmListP1 fixtureP1 (s2l "us")).1 = .ok expectedP1 ∧
    lookupA expectedP1.crRealm (s2l "realm1-main") = some 1 ∧
    lookupA expectedP1.crRealm (s2l "realm2") = some 1 ∧
    lookupA expectedP1.crRealm (s2l "realm5") = some 1 ∧
    lookupA expectedP1.crRealm (s2l "realm3-main") = some 3 ∧
    lookupA expectedP1.crRealm (s2l "realm4") = some 3 ∧
    expectedP1.allRealms =
      [(s2l "realm1-main", 1), (s2l "realm2", 2), (s2l "realm3-main", 3),
       (s2l "realm4", 4), (s2l "realm5", 5)] ∧
    getRealmListB fixtureB = .ok expectedB ∧
    lookupA expectedB.connectedRealms (s2l "realm1-main") = some 1 ∧
    lookupA expectedB.connectedRealms (s2l "realm3-main") = some 3 ∧
    expectedB.allRealms = expectedP1.allRealms := by
  exact ⟨rfl, by decide, by decide, by decide, by decide, by decide, by decide,
    rfl, by decide, by decide, by decide⟩

/-! ## C7 -/

/-- C7: `IsValidRegion` returns true on `us` and `eu` as claimed, but —
because it is implemented as `strings.Index("useu", region)` being 0 or
2 — it also returns true on the three-or-more-character strings `use` and
`useu`, contradicting the claim (and the function's own doc comment) that
every string of two or more characters other than `us`/`eu` is rejected. -/
theorem c7_region_validation :
    isValidRegionGo (s2l "us") = true ∧
    isValidRegionGo (s2l "eu") = true ∧
    isValidRegionGo (s2l "use") = true ∧
    isValidRegionGo (s2l "useu") = true ∧
    isValidRegionGo (s2l "se") = false ∧
    isValidRegionGo (s2l "seu") = false ∧
    isValidRegionGo (s2l "ca") = false ∧
    isValidRegionGo (s2l "usa") = false := by
  decide

/-! ## C5 -/

/-- C5 counterexample: `RealmSlug` is not idempotent.  On `"a b"` the first
pass turns the space into a hyphen, and the second pass deletes that
hyphen, so normalizing twice differs from normalizing once. -/
theorem c5_counterexample :
    realmSlugGo (realmSlugGo (s2l "a b")) ≠ realmSlugGo (s2l "a b") ∧
    realmSlugGo (s2l "a b") = s2l "a-b" ∧
    realmSlugGo (s2l "a-b") = s2l "ab" := by
  refine ⟨by decide, rfl, rfl⟩

/-! ## C4 -/

/-- C4 counterexample: with six parseable cluster references, the five
one-shot workers of the eager variant fetch only the first five; here the
sixth cluster (id 10) is parsed from the index, its membership fetch would
fail with an injected error, yet the build completes successfully without
ever attempting it — so it is false that every parsed entry's membership
fetch is attempted before the build completes. -/
theorem c4_counterexample :
    parseClusterIDs fxHrefs6 = .ok [1, 3, 7, 8, 9, 10] ∧
    fixtureP1Six.cluster 10 = .error 66 ∧
    (getRealmListP1 fixtureP1Six (s2l "us")).1 = .ok expectedP1 ∧
    (getRealmListP1 fixtureP1Six (s2l "us")).2 = [1, 3, 7, 8, 9] ∧
    10 ∉ (getRealmListP1 fixtureP1Six (s2l "us")).2 := by
  refine ⟨rfl, rfl, rfl, rfl, by decide⟩

theorem scrapeOne_of_unitErr_none (t : TransportP1) (cid : Nat) (st : CrcState)
    (h : unitErr t cid = none) : ∃ st', scrapeOne t cid st = .ok st' := by
  unfold unitErr at h
  unfold scrapeOne
  rcases hc : t.cluster cid with e | entries <;> rw [hc] at h <;>
    dsimp only at h ⊢
  · exact Option.noConfusion h
  · rcases hs : entrySlugs entries with e | slugs <;> rw [hs] at h <;>
      dsimp only at h ⊢
    · exact Option.noConfusion h
    · exact ⟨_, rfl⟩

theorem scrapeOne_of_unitErr_some (t : TransportP1) (cid : Nat) (st : CrcState)
    (e : BErr) (h : unitErr t cid = some e) : scrapeOne t cid st = .error e := by
  unfold unitErr at h
  unfold scrapeOne
  rcases hc : t.cluster cid with e' | entries <;> rw [hc] at h <;>
    dsimp only at h ⊢
  · simp only [Option.some.injEq] at h
    rw [h]
  · rcases hs : entrySlugs entries with e' | slugs <;> rw [hs] at h <;>
      dsimp only at h ⊢
    · simp only [Option.some.injEq] at h
      rw [h]
    · exact Option.noConfusion h

theorem scrapeAll_first_err (t : TransportP1) (pre : List Nat) (cid : Nat)
    (post : List Nat) (e : BErr) :
    ∀ st : CrcState, (∀ c ∈ pre, unitErr t c = none) → unitErr t cid = some e →
    scrapeAll t (pre ++ cid :: post) st = .error e := by
  induction pre with
  | nil =>
    intro st _ hc
    simp only [List.nil_append, scrapeAll]
    rw [scrapeOne_of_unitErr_some t cid st e hc]
  | cons a p ih =>
    intro st hpre hc
    simp only [List.cons_append, scrapeAll]
    obtain ⟨st1, h1⟩ := scrapeOne_of_unitErr_none t a st
      (hpre a (List.mem_cons_self a p))
    rw [h1]
    dsimp only
    exact ih st1 (fun c hcm => hpre c (List.mem_cons_of_mem a hcm)) hc

/-! ## C3 -/

/-- C3: in the eager variant every fetch failure aborts the whole build with
that error and no `Realms` value: a realm-index fetch error and a
connected-realm-index fetch error are returned verbatim, and if a processed
cluster unit's fetch fails while the units before it (in channel order — the
order in which the model observes them) succeed, its error is returned
verbatim.  The lazy-concurrent variant, by contrast, never returns at all
once dispatch begins: with an injected per-realm fetch error on the fixture
it blocks instead of returning the error (its own test expects a return). -/
theorem c3_error_propagation :
    (∀ (t : TransportP1) (region : Str) (e : Nat),
        t.realmIndex = .error e →
        getRealmListP1 t region = (.error (.fetch e), [])) ∧
    (∀ (t : TransportP1) (region : Str) (rl : List RealmEntry) (e : Nat),
        t.realmIndex = .ok rl → t.connIndex = .error e →
        getRealmListP1 t region = (.error (.fetch e), [])) ∧
    (∀ (t : TransportP1) (region : Str) (rl : List RealmEntry)
        (hrefs : List Str) (ids pre post : List Nat) (cid ec : Nat),
        t.realmIndex = .ok rl → t.connIndex = .ok hrefs →
        parseClusterIDs hrefs = .ok ids →
        ids.take 5 = pre ++ cid :: post →
        (∀ c ∈ pre, unitErr t c = none) →
        t.cluster cid = .error ec →
        (getRealmListP1 t region).1 = .error (.fetch ec)) ∧
    getRealmList000 fixture000Err (s2l "us") = .blocked := by
  refine ⟨?_, ?_, ?_, rfl⟩
  · intro t region e h
    unfold getRealmListP1
    rw [h]
  · intro t region rl e h1 h2
    unfold getRealmListP1
    rw [h1]
    dsimp only
    rw [h2]
  · intro t region rl hrefs ids pre post cid ec h1 h2 h3 hsplit hpre hc
    have hce : unitErr t cid = some (.fetch ec) := by
      unfold unitErr
      rw [hc]
    unfold getRealmListP1
    rw [h1]
    dsimp only
    rw [h2]
    dsimp only
    rw [h3]
    dsimp only
    rw [hsplit, scrapeAll_first_err t pre cid post (.fetch ec) ⟨[], [], []⟩
      hpre hce]

/-- C3 witness: an index-fetch error (code 7) and a cluster-unit fetch error
(code 55, cluster 3, after cluster 1 succeeds) are each returned verbatim by
the eager build. -/
theorem c3_witness :
    getRealmListP1 fixtureP1IdxErr (s2l "us") = (.error (.fetch 7), []) ∧
    (getRealmListP1 fixtureP1UnitErr (s2l "us")).1 = .error (.fetch 55) :=
  ⟨c3_error_propagation.1 fixtureP1IdxErr (s2l "us") 7 rfl,
   c3_error_propagation.2.2.1 fixtureP1UnitErr (s2l "us") fxRealms fxHrefs
     [1, 3] [1] [] 3 55 rfl rfl rfl rfl (by decide) rfl⟩

/-! ## C4 -/

/-- C4 (amended): hrefs from which no cluster id can be extracted are
silently skipped — deleting such an href anywhere in the connected-realm
index leaves the parse result unchanged — and the cluster ids whose
membership fetch the eager build attempts are exactly the first five parsed
ids (each of the five workers exits after one channel item), so every
parsed entry is attempted precisely when at most five entries parse.  (The
sequential bnet.go variant attempts no membership fetch at all during its
build; see the counterexample for the sixth-cluster violation.) -/
theorem c4_parse_and_trace :
    (∀ (t : TransportP1) (region : Str) (rl : List RealmEntry)
        (hrefs : List Str) (ids : List Nat),
        t.realmIndex = .ok rl → t.connIndex = .ok hrefs →
        parseClusterIDs hrefs = .ok ids →
        (getRealmListP1 t region).2 = ids.take 5) ∧
    (∀ (l1 l2 : List Str) (h : Str), findClusterDigits h = none →
        parseClusterIDs (l1 ++ h :: l2) = parseClusterIDs (l1 ++ l2)) := by
  constructor
  · intro t region rl hrefs ids h1 h2 h3
    unfold getRealmListP1
    rw [h1]
    dsimp only
    rw [h2]
    dsimp only
    rw [h3]
    dsimp only
    rcases hs : scrapeAll t (ids.take 5) ⟨[], [], []⟩ with e | st <;>
      dsimp only
    by_cases hl : (indexPass rl [] st.check).2.length > 0
    · rw [if_pos hl]
    · rw [if_neg hl]
  · intro l1 l2 h hnone
    induction l1 with
    | nil =>
      simp only [List.nil_append, parseClusterIDs]
      rw [hnone]
    | cons a t ih =>
      simp only [List.cons_append, parseClusterIDs]
      rcases hfa : findClusterDigits a with _ | ds <;> dsimp only
      · exact ih
      · by_cases hle : natOfDigs ds ≤ intMax
        · rw [if_pos hle, if_pos hle]
          exact congrArg _ ih
        · rw [if_neg hle, if_neg hle]

/-- C4 witness: on the six-cluster transport the attempted fetch trace is
the first five parsed ids, and deleting an unparseable href leaves the
parse unchanged. -/
theorem c4_witness :
    (getRealmListP1 fixtureP1Six (s2l "us")).2 =
      ([1, 3, 7, 8, 9, 10] : List Nat).take 5 ∧
    parseClusterIDs (fxBadHref :: fxHrefs) = parseClusterIDs fxHrefs :=
  ⟨c4_parse_and_trace.1 fixtureP1Six (s2l "us") fxRealms fxHrefs6
      [1, 3, 7, 8, 9, 10] rfl rfl rfl,
   c4_parse_and_trace.2 [] fxHrefs fxBadHref (by decide)⟩

/-! ## C2 -/

/-- C2: in the eager scatter-gather build, if the realm-index slugs are
distinct and some slug of `AllRealms` appears a number of times different
from one across the processed cluster-membership results (never, or more
than once), then — provided all processed units themselves succeeded —
`GetRealmList` fails with the completeness error `realms not completely
scraped` and returns no `Realms` value. -/
theorem c2_completeness (t : TransportP1) (region : Str) (rl : List RealmEntry)
    (hrefs : List Str) (ids : List Nat) (st : CrcState) (s : Str)
    (h1 : t.realmIndex = .ok rl) (h2 : t.connIndex = .ok hrefs)
    (h3 : parseClusterIDs hrefs = .ok ids)
    (h4 : scrapeAll t (ids.take 5) ⟨[], [], []⟩ = .ok st)
    (h5 : (rl.map (·.slug)).Nodup)
    (h6 : s ∈ rl.map (·.slug))
    (h7 : (allUnitSlugs t (ids.take 5)).count s ≠ 1) :
    (getRealmListP1 t region).1 = .error .notCompletelyScraped := by
  have hck : getIA st.check s = ((allUnitSlugs t (ids.take 5)).count s : Int) := by
    have hh := scrapeAll_check t (ids.take 5) ⟨[], [], []⟩ st h4 s
    simpa [getIA] using hh
  have hne1 : getIA st.check s ≠ 1 := by
    rw [hck]
    intro hh
    apply h7
    exact_mod_cast hh
  have hnz : getIA (indexPass rl [] st.check).2 s ≠ 0 := by
    rw [indexPass_check_mem rl [] st.check s h6 h5 hne1, hck]
    omega
  have hlen : (indexPass rl [] st.check).2.length > 0 :=
    length_pos_of_getIA _ s hnz
  unfold getRealmListP1
  rw [h1]
  dsimp only
  rw [h2]
  dsimp only
  rw [h3]
  dsimp only
  rw [h4]
  dsimp only
  rw [if_pos hlen]

/-- C2 witness: removing `realm5` from cluster 1's expansion response (the
only expansion response containing it) makes the fixture build fail with
the completeness error. -/
theorem c2_witness :
    (getRealmListP1 fixtureP1No5 (s2l "us")).1 = .error .notCompletelyScraped :=
  c2_completeness fixtureP1No5 (s2l "us") fxRealms fxHrefs [1, 3]
    ⟨[(1, [s2l "realm1-main", s2l "realm2"]),
      (3, [s2l "realm3-main", s2l "realm4"])],
     [(s2l "realm1-main", 1), (s2l "realm2", 1),
      (s2l "realm3-main", 1), (s2l "realm4", 1)],
     [(s2l "realm1-main", 1), (s2l "realm2", 1),
      (s2l "realm3-main", 3), (s2l "realm4", 3)]⟩
    (s2l "realm5") rfl rfl rfl rfl (by decide) (by decide) (by decide)

/-! ## Normalizer lemmas -/

theorem lowerCh_idem (d : Nat) : lowerCh (lowerCh d) = lowerCh d := by
  unfold lowerCh
  split_ifs <;> omega

theorem lowerCh_of_small (d x : Nat) (hx : x < 65) (h : lowerCh d = x) :
    d = x := by
  unfold lowerCh at h
  split_ifs at h <;> omega

theorem mem_removeCh (x : Nat) (s : Str) (c : Nat) :
    c ∈ removeCh x s → c ∈ s ∧ c ≠ x := by
  induction s with
  | nil => intro h; simp [removeCh] at h
  | cons a t ih =>
    intro h
    simp only [removeCh] at h
    by_cases ha : a = x
    · rw [if_pos ha] at h
      obtain ⟨h1, h2⟩ := ih h
      exact ⟨List.mem_cons_of_mem a h1, h2⟩
    · rw [if_neg ha] at h
      rcases List.mem_cons.mp h with hc | hc
      · exact ⟨by simp [hc], hc ▸ ha⟩
      · obtain ⟨h1, h2⟩ := ih hc
        exact ⟨List.mem_cons_of_mem a h1, h2⟩

theorem removeCh_id (x : Nat) (s : Str) :
    (∀ c ∈ s, c ≠ x) → removeCh x s = s := by
  induction s with
  | nil => intro _; rfl
  | cons a t ih =>
    intro h
    simp only [removeCh]
    rw [if_neg (h a (List.mem_cons_self a t)),
      ih (fun c hc => h c (List.mem_cons_of_mem a hc))]

theorem replCh_id (a b : Nat) (s : Str) :
    (∀ c ∈ s, c ≠ a) → replCh a b s = s := by
  induction s with
  | nil => intro _; rfl
  | cons x t ih =>
    intro h
    simp only [replCh]
    rw [if_neg (h x (List.mem_cons_self x t)),
      ih (fun c hc => h c (List.mem_cons_of_mem x hc))]

theorem lowerStr_id (y : Str) :
    (∀ c ∈ y, lowerCh c = c) → lowerStr y = y := by
  induction y with
  | nil => intro _; rfl
  | cons a t ih =>
    intro h
    simp only [lowerStr, List.map_cons]
    rw [h a (List.mem_cons_self a t)]
    have ht := ih (fun c hc => h c (List.mem_cons_of_mem a hc))
    simp only [lowerStr] at ht
    rw [ht]

theorem nfdTable_cases (a : Nat) (p : Nat × Nat) (h : nfdTable a = some p) :
    p = (97, 769) ∨ p = (101, 769) := by
  unfold nfdTable at h
  split_ifs at h <;> simp only [Option.some.injEq] at h
  · exact Or.inl h.symm
  · exact Or.inr h.symm

theorem nfdStr_id (s : Str) :
    (∀ c ∈ s, nfdTable c = none) → nfdStr s = s := by
  induction s with
  | nil => intro _; rfl
  | cons a t ih =>
    intro h
    simp only [nfdStr]
    rw [h a (List.mem_cons_self a t)]
    dsimp only
    rw [ih (fun c hc => h c (List.mem_cons_of_mem a hc))]

theorem mem_nfdStr (s : Str) (c : Nat) :
    c ∈ nfdStr s →
    (c ∈ s ∧ nfdTable c = none) ∨ c = 97 ∨ c = 101 ∨ c = 769 := by
  induction s with
  | nil => intro h; simp [nfdStr] at h
  | cons a t ih =>
    intro h
    simp only [nfdStr] at h
    rcases ha : nfdTable a with _ | p <;> rw [ha] at h <;> dsimp only at h
    · rcases List.mem_cons.mp h with hc | hc
      · exact Or.inl ⟨by simp [hc], hc ▸ ha⟩
      · rcases ih hc with ⟨h1, h2⟩ | h'
        · exact Or.inl ⟨List.mem_cons_of_mem a h1, h2⟩
        · exact Or.inr h'
    · rcases List.mem_cons.mp h with hc | h'
      · rcases nfdTable_cases a p ha with hp | hp <;> rw [hp] at hc <;>
          simp at hc
        · exact Or.inr (Or.inl hc)
        · exact Or.inr (Or.inr (Or.inl hc))
      · rcases List.mem_cons.mp h' with hc | hc
        · rcases nfdTable_cases a p ha with hp | hp <;> rw [hp] at hc <;>
            simp at hc <;> exact Or.inr (Or.inr (Or.inr hc))
        · rcases ih hc with ⟨h1, h2⟩ | hrest
          · exact Or.inl ⟨List.mem_cons_of_mem a h1, h2⟩
          · exact Or.inr hrest

theorem mem_stripMn (s : Str) (c : Nat) :
    c ∈ stripMn s → c ∈ s ∧ isMnCh c = false := by
  induction s with
  | nil => intro h; simp [stripMn] at h
  | cons a t ih =>
    intro h
    simp only [stripMn] at h
    by_cases ha : isMnCh a = true
    · rw [if_pos ha] at h
      obtain ⟨h1, h2⟩ := ih h
      exact ⟨List.mem_cons_of_mem a h1, h2⟩
    · rw [if_neg ha] at h
      rcases List.mem_cons.mp h with hc | hc
      · exact ⟨by simp [hc], by subst hc; simpa using ha⟩
      · obtain ⟨h1, h2⟩ := ih hc
        exact ⟨List.mem_cons_of_mem a h1, h2⟩

theorem stripMn_id (s : Str) :
    (∀ c ∈ s, isMnCh c = false) → stripMn s = s := by
  induction s with
  | nil => intro _; rfl
  | cons a t ih =>
    intro h
    simp only [stripMn]
    rw [if_neg (by rw [h a (List.mem_cons_self a t)]; exact Bool.false_ne_true),
      ih (fun c hc => h c (List.mem_cons_of_mem a hc))]

theorem composeCh_none (a b : Nat) (h : isMnCh b = false) :
    composeCh a b = none := by
  unfold isMnCh at h
  unfold composeCh
  rw [if_neg (by simpa using h)]

theorem nfcStr_id : ∀ (s : Str), (∀ c ∈ s, isMnCh c = false) → nfcStr s = s
  | [], _ => rfl
  | [_], _ => rfl
  | a :: b :: t, h => by
    have hb : isMnCh b = false := h b (by simp)
    simp only [nfcStr]
    rw [composeCh_none a b hb]
    dsimp only
    rw [nfcStr_id (b :: t) (fun c hc => h c (List.mem_cons_of_mem a hc))]

/-- Every rune of the mark-stripped decomposition of a space-free input is
stable under the whole pipeline. -/
theorem stable_of_spaceless (s : Str) (hs : 32 ∉ s) :
    ∀ c ∈ stripMn (nfdStr (replCh 32 45 (removeCh 39 (removeCh 45
      (lowerStr s))))), stableCh c := by
  have hu : ∀ c ∈ removeCh 39 (removeCh 45 (lowerStr s)),
      lowerCh c = c ∧ c ≠ 45 ∧ c ≠ 39 ∧ c ≠ 32 := by
    intro c hc
    obtain ⟨hc1, h39⟩ := mem_removeCh 39 _ c hc
    obtain ⟨hc2, h45⟩ := mem_removeCh 45 _ c hc1
    obtain ⟨d, hd, hcd⟩ := List.mem_map.mp hc2
    have h32 : c ≠ 32 := by
      intro hc32
      apply hs
      have hd32 : d = 32 :=
        lowerCh_of_small d 32 (by omega) (by rw [hcd, hc32])
      rwa [hd32] at hd
    exact ⟨by rw [← hcd, lowerCh_idem], h45, h39, h32⟩
  have hw : replCh 32 45 (removeCh 39 (removeCh 45 (lowerStr s))) =
      removeCh 39 (removeCh 45 (lowerStr s)) :=
    replCh_id _ _ _ (fun c hc => (hu c hc).2.2.2)
  rw [hw]
  intro c hc
  obtain ⟨hcn, hmn⟩ := mem_stripMn _ c hc
  rcases mem_nfdStr _ c hcn with ⟨hcu, htab⟩ | h97 | h101 | h769
  · obtain ⟨hl, h45, h39, h32⟩ := hu c hcu
    exact ⟨hl, h45, h39, h32, htab, hmn⟩
  · subst h97
    exact ⟨by decide, by decide, by decide, by decide, by decide, by decide⟩
  · subst h101
    exact ⟨by decide, by decide, by decide, by decide, by decide, by decide⟩
  · rw [h769] at hmn
    simp [isMnCh] at hmn

/-- The normalizer is the identity on strings all of whose runes are
stable. -/
theorem realmSlugGo_fixed (y : Str) (h : ∀ c ∈ y, stableCh c) :
    realmSlugGo y = y := by
  unfold realmSlugGo
  rw [lowerStr_id y (fun c hc => (h c hc).1)]
  rw [removeCh_id 45 y (fun c hc => (h c hc).2.1)]
  rw [removeCh_id 39 y (fun c hc => (h c hc).2.2.1)]
  rw [replCh_id 32 45 y (fun c hc => (h c hc).2.2.2.1)]
  rw [nfdStr_id y (fun c hc => (h c hc).2.2.2.2.1)]
  rw [stripMn_id y (fun c hc => (h c hc).2.2.2.2.2)]
  exact nfcStr_id y (fun c hc => (h c hc).2.2.2.2.2)

/-- C5 (amended): `RealmSlug` is idempotent on every input containing no
space rune (the original claim fails exactly because a space becomes a
hyphen that a second pass deletes). -/
theorem c5_idempotent_on_spaceless (s : Str) (h : 32 ∉ s) :
    realmSlugGo (realmSlugGo s) = realmSlugGo s := by
  have hstable := stable_of_spaceless s h
  have hz : realmSlugGo s = stripMn (nfdStr (replCh 32 45 (removeCh 39
      (removeCh 45 (lowerStr s))))) := by
    unfold realmSlugGo
    exact nfcStr_id _ (fun c hc => (hstable c hc).2.2.2.2.2)
  rw [hz]
  exact realmSlugGo_fixed _ hstable

/-- C5 witness: a space-free name with uppercase, a hyphen, an apostrophe
and an accented rune normalizes idempotently. -/
theorem c5_witness :
    32 ∉ ([75, 105, 108, 39, 106, 97, 101, 100, 101, 110, 45, 193] : Str) ∧
    realmSlugGo (realmSlugGo
      [75, 105, 108, 39, 106, 97, 101, 100, 101, 110, 45, 193]) =
    realmSlugGo [75, 105, 108, 39, 106, 97, 101, 100, 101, 110, 45, 193] :=
  ⟨by decide,
   c5_idempotent_on_spaceless
     [75, 105, 108, 39, 106, 97, 101, 100, 101, 110, 45, 193] (by decide)⟩

/-! ## C6 -/

/-- C6 counterexample: the fallback resolver writes the discovered mapping
under the ORIGINAL slug argument but reads the cache under the sanitized
one.  Calling it with `Realm2` succeeds and writes `Realm2 ↦ 1`, yet a
second call with the same argument misses the cache (`realm2` is not a
key) and performs another transport `Get` — it is not answered from the
cache, contradicting the claim. -/
theorem c6_counterexample :
    connectedRealmIDB fixtureBW slugR2U (s2l "us") [] =
      (.ok 1, [(slugR2U, 1)], 1) ∧
    lookupA [(slugR2U, 1)] (sanitize slugR2U) = none ∧
    (connectedRealmIDB fixtureBW slugR2U (s2l "us") [(slugR2U, 1)]).2.2 = 1 := by
  refine ⟨rfl, by decide, rfl⟩

/-- C6 (amended): for every valid region and every slug argument that is
already sanitized (equal to its lowercased, whitespace-trimmed form), a
successful fallback `ConnectedRealmID` resolution has written the
discovered mapping into the shared collection before returning, a second
call with the same argument is answered from the cache — same ClusterID,
no transport call, collection unchanged — and no previously written mapping
is removed or changed.  (For a non-sanitized argument the write is keyed by
the original argument while the read uses the sanitized key, so the second
call is not answered from the cache; see the counterexample.) -/
theorem c6_cache_write (t : TransportB) (slug region : Str)
    (c0 c1 : List (Str × Nat)) (id n1 : Nat)
    (hreg : isValidRegionGo region = true)
    (hsan : sanitize slug = slug)
    (hcall : connectedRealmIDB t slug region c0 = (.ok id, c1, n1)) :
    lookupA c1 slug = some id ∧
    connectedRealmIDB t slug region c1 = (.ok id, c1, 0) ∧
    (∀ k v, lookupA c0 k = some v → lookupA c1 k = some v) := by
  rcases hlk : lookupA c0 slug with _ | id0
  · -- cache miss: the fetch-and-write path
    rcases hs : t.search slug with e | sr
    · simp [connectedRealmIDB, hreg, hsan, hlk, hs] at hcall
    · have main : ∀ en : RealmEntry,
          insertA c0 slug en.id = c1 → en.id = id →
          lookupA c1 slug = some id ∧
          connectedRealmIDB t slug region c1 = (.ok id, c1, 0) ∧
          (∀ k v, lookupA c0 k = some v → lookupA c1 k = some v) := by
        intro en hc hid
        subst hc
        subst hid
        refine ⟨lookupA_insertA_self c0 slug en.id, ?_, ?_⟩
        · simp [connectedRealmIDB, hreg, hsan,
            lookupA_insertA_self c0 slug en.id]
        · intro k v hkv
          by_cases hk : k = slug
          · rw [hk, hlk] at hkv
            exact Option.noConfusion hkv
          · rw [lookupA_insertA_ne c0 slug k en.id hk]
            exact hkv
      by_cases hp1 : sr.pageSize > 1
      · rcases hg : sliceGet sr.results
            ((sr.results.findIdx? (fun en => en.slug = slug)).getD 0) with _ | en
        · simp [connectedRealmIDB, hreg, hsan, hlk, hs, hp1, hg] at hcall
        · simp [connectedRealmIDB, hreg, hsan, hlk, hs, hp1, hg,
            Prod.mk.injEq] at hcall
          exact main en hcall.2.1 hcall.1
      · by_cases hp0 : sr.pageSize = 0
        · simp [connectedRealmIDB, hreg, hsan, hlk, hs, hp1, hp0] at hcall
        · rcases hg : sliceGet sr.results 0 with _ | en
          · simp [connectedRealmIDB, hreg, hsan, hlk, hs, hp1, hp0,
              hg] at hcall
          · simp [connectedRealmIDB, hreg, hsan, hlk, hs, hp1, hp0, hg,
              Prod.mk.injEq] at hcall
            exact main en hcall.2.1 hcall.1
  · -- cache hit: nothing is fetched or written
    simp [connectedRealmIDB, hreg, hsan, hlk, Prod.mk.injEq] at hcall
    obtain ⟨hid, hc, hn⟩ := hcall
    subst hc
    subst hid
    refine ⟨hlk, ?_, fun k v hkv => hkv⟩
    simp [connectedRealmIDB, hreg, hsan, hlk]

/-- C6 witness: a sanitized slug (`realm2`) round-trips through the cache. -/
theorem c6_witness :
    lookupA [(s2l "realm2", 1)] (s2l "realm2") = some 1 ∧
    connectedRealmIDB fixtureBW (s2l "realm2") (s2l "us") [(s2l "realm2", 1)] =
      (.ok 1, [(s2l "realm2", 1)], 0) ∧
    (∀ k v, lookupA [] k = some v → lookupA [(s2l "realm2", 1)] k = some v) :=
  c6_cache_write fixtureBW (s2l "realm2") (s2l "us") [] [(s2l "realm2", 1)]
    1 1 (by decide) (by decide) rfl

/-! ## C8 -/

/-- C8 counterexample: `use` lies outside the fixed supported region set
{us, eu}, yet the validator accepts it and `ConnectedRealmID` proceeds to
perform a transport `Get` (fetch count 1, returning the fetched id) instead
of failing immediately with an invalid-region error. -/
theorem c8_counterexample :
    isValidRegionGo (s2l "use") = true ∧
    s2l "use" ≠ s2l "us" ∧
    s2l "use" ≠ s2l "eu" ∧
    connectedRealmIDB fixtureBW (s2l "realm2") (s2l "use") [] =
      (.ok 1, [(s2l "realm2", 1)], 1) := by
  refine ⟨by decide, by decide, by decide, rfl⟩

/-- C8 (amended): a `ConnectedRealmID` lookup whose region the validator
rejects returns the invalid-region error immediately — no transport `Get`
is made (fetch count 0) and the shared collection is returned untouched —
in the sequential variant, in part_000's resolver (whatever the scanner's
lock state), and in part_000's exported entry point; the validator's
acceptance set, however, is the substrings of `useu` at index 0 or 2, not
just {us, eu} (see the counterexample). -/
theorem c8_invalid_region (tB : TransportB) (t0 : Transport000)
    (rs : Scanner000) (slug region : Str) (c : List (Str × Nat))
    (h : isValidRegionGo region = false) :
    connectedRealmIDB tB slug region c = (.error .invalidRegion, c, 0) ∧
    connRealmID000 rs t0 slug region c = (.error .invalidRegion, c, 0) ∧
    exportedConnRealmID000 t0 slug region c = (.error .invalidRegion, c, 0) := by
  refine ⟨?_, ?_, ?_⟩ <;>
    simp [connectedRealmIDB, connRealmID000, exportedConnRealmID000,
      globalScanner000, h]

/-- C8 witness: region `ca` is rejected before any network access. -/
theorem c8_witness :
    isValidRegionGo (s2l "ca") = false ∧
    connectedRealmIDB fixtureBW (s2l "realm2") (s2l "ca") [] =
      (.error .invalidRegion, [], 0) ∧
    connRealmID000 buildScanner000 fixture000Err (s2l "realm2") (s2l "ca") [] =
      (.error .invalidRegion, [], 0) :=
  ⟨by decide,
   (c8_invalid_region fixtureBW fixture000Err buildScanner000 (s2l "realm2")
      (s2l "ca") [] (by decide)).1,
   (c8_invalid_region fixtureBW fixture000Err buildScanner000 (s2l "realm2")
      (s2l "ca") [] (by decide)).2.1⟩

/-! ## C10 -/

/-- C10: the lazy-concurrent variant (part_000) can never reach its success
return: whenever both index fetches and decodes succeed the function blocks
forever ranging over the never-closed dispatch channel; the build's
`realmScanner` has a nil lock, so any worker that runs panics at
`r.lock.RLock()`; and the package-level scanner behind the exported
`ConnectedRealmID` is a nil pointer, so it panics the same way on every
valid region. -/
theorem c10_lazy_never_succeeds :
    (∀ (t : Transport000) (region : Str) (r : Realms000),
        getRealmList000 t region ≠ .ok r) ∧
    (∀ (t : Transport000) (region : Str) (rl : List RealmEntry)
        (hrefs : List Str) (ids : List Nat),
        t.realmIndex = .ok rl → t.connIndex = .ok hrefs →
        parseClusterIDs hrefs = .ok ids →
        getRealmList000 t region = .blocked) ∧
    buildScanner000.lock = none ∧
    globalScanner000 = none ∧
    (∀ (t : Transport000) (slug region : Str) (c : List (Str × Nat)),
        isValidRegionGo region = true →
        (connRealmID000 buildScanner000 t slug region c).1 =
          .error .panicNilLock) ∧
    (∀ (t : Transport000) (slug region : Str) (c : List (Str × Nat)),
        isValidRegionGo region = true →
        (exportedConnRealmID000 t slug region c).1 = .error .panicNilLock) := by
  refine ⟨?_, ?_, rfl, rfl, ?_, ?_⟩
  · intro t region r h
    unfold getRealmList000 at h
    rcases h1 : t.realmIndex with e | rl <;> rw [h1] at h <;> dsimp only at h
    · exact Outcome000.noConfusion h
    rcases h2 : t.connIndex with e | hrefs <;> rw [h2] at h <;> dsimp only at h
    · exact Outcome000.noConfusion h
    rcases h3 : parseClusterIDs hrefs with e | ids <;> rw [h3] at h <;>
      dsimp only at h
    · exact Outcome000.noConfusion h
    · exact Outcome000.noConfusion h
  · intro t region rl hrefs ids h1 h2 h3
    unfold getRealmList000
    rw [h1, h2]
    dsimp only
    rw [h3]
    rfl
  · intro t slug region c h
    simp [connRealmID000, h, buildScanner000]
  · intro t slug region c h
    simp [exportedConnRealmID000, globalScanner000, connRealmID000, h]

/-- C10 witness: on the part_002 mock scenario (with an injected per-realm
error) the build blocks, and a worker call on the build's scanner panics
on the nil lock. -/
theorem c10_witness :
    getRealmList000 fixture000Err (s2l "us") = .blocked ∧
    (connRealmID000 buildScanner000 fixture000Err (s2l "realm2") (s2l "us")
        []).1 = .error .panicNilLock ∧
    (exportedConnRealmID000 fixture000Err (s2l "realm2") (s2l "us") []).1 =
      .error .panicNilLock :=
  ⟨c10_lazy_never_succeeds.2.1 fixture000Err (s2l "us") fxRealms fxHrefs
      [1, 3] rfl rfl rfl,
   c10_lazy_never_succeeds.2.2.2.2.1 fixture000Err (s2l "realm2") (s2l "us")
      [] rfl,
   c10_lazy_never_succeeds.2.2.2.2.2 fixture000Err (s2l "realm2") (s2l "us")
      [] rfl⟩

end AucBnet
